import Mathlib

/-!
A formal model of mygithelper (main.go), a tool that manages a fleet of
git repositories: the get command (clone or pull, then stale-repository
removal), the update command (an idempotent update-proposal pipeline over
CI configuration and go.mod), and their shared helpers.

External processes (git, ghat, gh, go) are modelled by their observable
results: an environment record carries, for each query the program makes,
the answer the external world would give (porcelain status strings, branch
probe results, file bytes, the set of remote branch names, success flags
for each mutating command), and each pipeline is a pure function from that
environment to an outcome together with the trace of mutating operations
it issued, in order.  The xxhash64 fingerprint used for proposal identity
is modelled in full (the xxhash library is an external dependency of the
repository; the model follows the published XXH64 algorithm with seed 0,
which is what xxhash.New() uses, and streaming writes are modelled by
hashing the concatenation of the written byte slices).
-/

/-! ## The XXH64 fingerprint (github.com/cespare/xxhash/v2, seed 0) -/

/-- The modulus of 64-bit machine arithmetic. -/
def M64 : Nat := 2 ^ 64

def prime1 : Nat := 11400714785074694791

def prime2 : Nat := 14029467366897019727

def prime3 : Nat := 1609587929392839161

def prime4 : Nat := 9650029242287828579

def prime5 : Nat := 2870177450012600261

/-- 64-bit wrapping addition. -/
def add64 (a b : Nat) : Nat := (a + b) % M64

/-- 64-bit wrapping multiplication. -/
def mul64 (a b : Nat) : Nat := (a * b) % M64

/-- 64-bit rotate left by r bits. -/
def rotl64 (x r : Nat) : Nat := ((x <<< r) % M64) ||| (x >>> (64 - r))

/-- The XXH64 round function: acc = rotl31(acc + lane * prime2) * prime1. -/
def xxhRound (acc lane : Nat) : Nat :=
  mul64 (rotl64 (add64 acc (mul64 lane prime2)) 31) prime1

/-- The XXH64 merge step applied to each lane accumulator at the end. -/
def mergeRound (h v : Nat) : Nat := add64 (mul64 (h ^^^ xxhRound 0 v) prime1) prime4

/-- A little-endian integer from a list of bytes. -/
def leNat : List Nat → Nat
  | [] => 0
  | b :: rest => (b % 256) + 256 * leNat rest

/-- Consume 32-byte stripes, updating the four lane accumulators; returns the
accumulators and the fewer than 32 remaining bytes. -/
def xxhStripes (v1 v2 v3 v4 : Nat) : List Nat → Nat × Nat × Nat × Nat × List Nat
  | a1 :: a2 :: a3 :: a4 :: a5 :: a6 :: a7 :: a8 ::
    b1 :: b2 :: b3 :: b4 :: b5 :: b6 :: b7 :: b8 ::
    c1 :: c2 :: c3 :: c4 :: c5 :: c6 :: c7 :: c8 ::
    d1 :: d2 :: d3 :: d4 :: d5 :: d6 :: d7 :: d8 :: rest =>
    xxhStripes (xxhRound v1 (leNat [a1, a2, a3, a4, a5, a6, a7, a8]))
      (xxhRound v2 (leNat [b1, b2, b3, b4, b5, b6, b7, b8]))
      (xxhRound v3 (leNat [c1, c2, c3, c4, c5, c6, c7, c8]))
      (xxhRound v4 (leNat [d1, d2, d3, d4, d5, d6, d7, d8])) rest
  | input => (v1, v2, v3, v4, input)

/-- Fold the at most 31 remaining bytes into the intermediate hash: 8-byte
chunks while 8 or more remain, then one 4-byte chunk when 4 or more remain,
then single bytes. -/
def xxhTail (h : Nat) : List Nat → Nat
  | a1 :: a2 :: a3 :: a4 :: a5 :: a6 :: a7 :: a8 :: rest =>
    xxhTail (add64 (mul64 (rotl64 (h ^^^
      xxhRound 0 (leNat [a1, a2, a3, a4, a5, a6, a7, a8])) 27) prime1) prime4) rest
  | a1 :: a2 :: a3 :: a4 :: rest =>
    xxhTail (add64 (mul64 (rotl64 (h ^^^
      mul64 (leNat [a1, a2, a3, a4]) prime1) 23) prime2) prime3) rest
  | b :: rest => xxhTail (mul64 (rotl64 (h ^^^ mul64 (b % 256) prime5) 11) prime1) rest
  | [] => h

/-- The final XXH64 avalanche mixing. -/
def avalanche (h : Nat) : Nat :=
  let h1 := h ^^^ (h >>> 33)
  let h2 := mul64 h1 prime2
  let h3 := h2 ^^^ (h2 >>> 29)
  let h4 := mul64 h3 prime3
  h4 ^^^ (h4 >>> 32)

/-- XXH64 with seed 0 over a byte sequence, as xxhash.New + Write + Sum64
computes it over the concatenation of everything written. -/
def xxh64 (input : List Nat) : Nat :=
  let n := input.length
  let hrest : Nat × List Nat :=
    if 32 ≤ n then
      let s := xxhStripes (add64 prime1 prime2) prime2 0 (M64 - prime1) input
      let h0 := add64 (add64 (rotl64 s.1 1) (rotl64 s.2.1 7))
        (add64 (rotl64 s.2.2.1 12) (rotl64 s.2.2.2.1 18))
      (mergeRound (mergeRound (mergeRound (mergeRound h0 s.1) s.2.1) s.2.2.1) s.2.2.2.1,
        s.2.2.2.2)
    else (prime5, input)
  avalanche (xxhTail (add64 hrest.1 n) hrest.2)

/-- A lowercase hexadecimal digit. -/
def hexDigit (n : Nat) : Char := if n < 10 then Char.ofNat (48 + n) else Char.ofNat (87 + n)

/-- The lowercase hexadecimal digits of n, most significant first, no leading
zeros (empty for 0); the first argument is fuel, one unit per digit, and any
fuel of at least n suffices since a division by 16 shrinks a positive n. -/
def hexCharsAux : Nat → Nat → List Char
  | 0, _ => []
  | fuel + 1, n => if n = 0 then [] else hexCharsAux fuel (n / 16) ++ [hexDigit (n % 16)]

/-- Lowercase hexadecimal rendering of a Nat, as the fmt %x verb prints a
uint64. -/
def natToHex (n : Nat) : String := if n = 0 then "0" else String.mk (hexCharsAux n n)

/-! ## Small helpers of main.go -/

/-- Go unicode.IsSpace over the ASCII range (all the whitespace that git and
go command output contains): space, tab, newline, vertical tab, form feed,
carriage return. -/
def isSpaceGo (c : Char) : Bool :=
  c = ' ' || c = '\t' || c = '\n' || c = '\x0b' || c = '\x0c' || c = '\r'

/-- strings.TrimSpace: drop leading and trailing whitespace. -/
def goTrimSpace (s : String) : String :=
  String.mk (((s.toList.dropWhile isSpaceGo).reverse.dropWhile isSpaceGo).reverse)

/-- strings.Split for a one-character separator, over the character list:
the (possibly empty) segments between occurrences of the separator; the
empty input yields one empty segment, as in Go. -/
def splitChar (sep : Char) : List Char → List (List Char)
  | [] => [[]]
  | c :: rest =>
    match splitChar sep rest with
    | [] => [[]]
    | h :: t => if c = sep then [] :: h :: t else (c :: h) :: t

/-- strings.Split of a string on a one-character separator. -/
def goSplit (s : String) (sep : Char) : List String :=
  (splitChar sep s.toList).map String.mk

/-- Whether the first character list is a leading segment of the second. -/
def isPrefixList : List Char → List Char → Bool
  | [], _ => true
  | _ :: _, [] => false
  | p :: ps, c :: cs => p = c && isPrefixList ps cs

/-- The decimal digits of a character list folded into a Nat. -/
def digitsToNat (cs : List Char) : Nat := cs.foldl (fun acc c => acc * 10 + (c.toNat - 48)) 0

/-- strconv.Atoi: an optional single leading sign, then one or more decimal
digits, nothing else; values outside the 64-bit signed range are an error
(none).  Used by prevGoVersion. -/
def goAtoi (s : String) : Option Int :=
  let cs := s.toList
  let signAndDigits : Bool × List Char :=
    match cs with
    | '+' :: rest => (false, rest)
    | '-' :: rest => (true, rest)
    | _ => (false, cs)
  let neg := signAndDigits.1
  let ds := signAndDigits.2
  if ds = [] then none
  else if !(ds.all Char.isDigit) then none
  else
    let v : Int := (if neg then -1 else 1) * (digitsToNat ds : Int)
    if v < -(2 ^ 63) ∨ (2 ^ 63) - 1 < v then none else some v

/-- prevGoVersion (main.go): split on dots; when there are not exactly two
parts, or the minor part does not parse, or it parses to at most 0, return
the input unchanged; otherwise decrement the minor part. -/
def prevGoVersion (version : String) : String :=
  match goSplit version '.' with
  | [major, minorPart] =>
    match goAtoi minorPart with
    | none => version
    | some minor => if minor ≤ 0 then version else major ++ "." ++ toString (minor - 1)
  | _ => version

/-- The claim statement of C9, written from its words: an input of the form
major.minor whose minor parses as a decimal integer at least 1 maps to
major.(minor minus 1); every other input is returned unchanged. -/
def prevGoVersionSpec (version : String) : String :=
  match goSplit version '.' with
  | [major, minorPart] =>
    match goAtoi minorPart with
    | some minor => if 1 ≤ minor then major ++ "." ++ toString (minor - 1) else version
    | none => version
  | _ => version

/-- repoNameFromPath (main.go): the second of exactly two slash-separated
segments, and the empty string for any other shape. -/
def repoNameFromPath (repo : String) : String :=
  match goSplit repo '/' with
  | [_, name] => name
  | _ => ""

/-- strings.TrimPrefix: remove the leading occurrence of p when s starts with
it, otherwise return s unchanged. -/
def goTrimLeading (s p : String) : String :=
  if isPrefixList p.toList s.toList then String.mk (s.toList.drop p.toList.length) else s

/-- What getDefaultBranch observes: the symbolic-ref query for the remote HEAD
pointer (none when the command fails, otherwise its raw output), and whether
the rev-parse probes for main and for master succeed. -/
structure BranchEnv where
  originHead : Option String
  hasMain : Bool
  hasMaster : Bool
deriving DecidableEq, Repr

/-- getDefaultBranch (main.go): the trimmed remote HEAD pointer with the
refs/remotes/origin/ front segment removed when the symbolic-ref query
succeeds; otherwise the first of the probes for main then master that
succeeds; otherwise main. -/
def getDefaultBranch (e : BranchEnv) : String :=
  match e.originHead with
  | some output => goTrimLeading (goTrimSpace output) "refs/remotes/origin/"
  | none =>
    if e.hasMain then "main"
    else if e.hasMaster then "master"
    else "main"

/-! ## Change detection and proposal identity -/

/-- What the update pipeline observes of a repository working tree after the
mutation steps ran: for each candidate tracked path, the porcelain status
output of the per-path git status query (none when the command fails), and
the current byte content of the file (none when reading it fails). -/
structure RepoState where
  testYmlStatus : Option String
  goModStatus : Option String
  testYml : Option (List Nat)
  goMod : Option (List Nat)
deriving DecidableEq, Repr

/-- testYmlChanged (main.go): the per-path status query over
.github/workflows/test.yml reports a nonblank entry; a failing query counts
as unchanged. -/
def testYmlChanged (s : RepoState) : Bool :=
  match s.testYmlStatus with
  | none => false
  | some output => goTrimSpace output != ""

/-- goModChanged (main.go): the per-path status query over go.mod and go.sum
reports a nonblank entry; a failing query counts as unchanged. -/
def goModChanged (s : RepoState) : Bool :=
  match s.goModStatus with
  | none => false
  | some output => goTrimSpace output != ""

/-- generateBranchName (main.go): hash the bytes of test.yml when it changed,
then the bytes of go.mod when it changed, into one xxhash64 accumulator, and
format the sum as mygithelper/update- followed by its lowercase hex.  A file
that should be hashed but cannot be read is an error. -/
def generateBranchName (s : RepoState) : Except String String :=
  let part1 : Except String (List Nat) :=
    if testYmlChanged s then
      match s.testYml with
      | some content => Except.ok content
      | none => Except.error "failed to read test.yml"
    else Except.ok []
  match part1 with
  | Except.error e => Except.error e
  | Except.ok bytes1 =>
    let part2 : Except String (List Nat) :=
      if goModChanged s then
        match s.goMod with
        | some content => Except.ok content
        | none => Except.error "failed to read go.mod"
      else Except.ok []
    match part2 with
    | Except.error e => Except.error e
    | Except.ok bytes2 =>
      Except.ok ("mygithelper/update-" ++ natToHex (xxh64 (bytes1 ++ bytes2)))

/-! ## The update pipeline as a state machine with an effect trace -/

/-- One mutating external operation the update pipeline can issue, in the
order it issues them; read-only queries (status, rev-parse, ls-remote) are
not effects. -/
inductive Effect where
  | checkoutBranch (branch : String)
  | pull
  | stepTestYml
  | stepGhat
  | stepGoModEdit
  | stepGoGet
  | revert
  | createBranch (branch : String)
  | stageAll
  | commit (msg : String)
  | push (branch : String)
  | openPR (title body : String)
deriving DecidableEq, Repr

/-- The proposal-creating git side effects: branch creation, staging,
commit, push, review-request creation. -/
def Effect.isPublishEffect : Effect → Bool
  | .createBranch _ => true
  | .stageAll => true
  | .commit _ => true
  | .push _ => true
  | .openPR _ _ => true
  | _ => false

/-- How one run of updateRepo over one repository ends. -/
inductive Outcome where
  | err (msg : String)
  | noop
  | skipped
  | published
deriving DecidableEq, Repr

/-- The outcome of a run together with the ordered trace of mutating
operations it issued (a failing operation is in the trace too: it was
attempted). -/
structure RunResult where
  outcome : Outcome
  trace : List Effect
deriving DecidableEq, Repr

/-- Preconditions and success flags of the four mutation steps of
runUpdateSteps: whether test.yml exists, whether .github/workflows exists,
whether go.mod exists, and whether each gated external operation succeeds. -/
structure StepsEnv where
  hasTestYml : Bool
  hasWorkflowsDir : Bool
  hasGoMod : Bool
  testYmlStepOk : Bool
  ghatOk : Bool
  goModEditOk : Bool
  goGetOk : Bool
deriving DecidableEq, Repr

/-- runUpdateSteps (main.go): the test.yml rewrite when test.yml exists, ghat
over the workflows directory when it exists, go mod edit then go get when
go.mod exists; a failing step aborts with its wrapped error message, the
steps already run staying in the trace. -/
def runUpdateSteps (e : StepsEnv) : List Effect × Option String :=
  let t1 : List Effect := if e.hasTestYml then [Effect.stepTestYml] else []
  if e.hasTestYml && !e.testYmlStepOk then (t1, some "failed to update test.yml")
  else
    let t2 := t1 ++ (if e.hasWorkflowsDir then [Effect.stepGhat] else [])
    if e.hasWorkflowsDir && !e.ghatOk then (t2, some "ghat failed")
    else
      let t3 := t2 ++ (if e.hasGoMod then [Effect.stepGoModEdit] else [])
      if e.hasGoMod && !e.goModEditOk then (t3, some "go mod edit failed")
      else
        let t4 := t3 ++ (if e.hasGoMod then [Effect.stepGoGet] else [])
        if e.hasGoMod && !e.goGetOk then (t4, some "go get failed")
        else (t4, none)

/-- Success flags for the six operations of UpdateCmd.createPR: branch
creation, staging, commit, push, review-request creation, checkout back to
the default branch. -/
structure PublishEnv where
  createBranchOk : Bool
  addOk : Bool
  commitOk : Bool
  pushOk : Bool
  prOk : Bool
  checkoutBackOk : Bool
deriving DecidableEq, Repr

/-- UpdateCmd.createPR (main.go): checkout -b, add -A, commit, push, gh pr
create, checkout back to the default branch, in order, stopping at the first
failing operation with its wrapped error. -/
def createPR (e : PublishEnv) (defaultBranch branchName commitMsg prBody : String) :
    List Effect × Option String :=
  if !e.createBranchOk then
    ([Effect.createBranch branchName], some "failed to create branch")
  else if !e.addOk then
    ([Effect.createBranch branchName, Effect.stageAll], some "failed to stage changes")
  else if !e.commitOk then
    ([Effect.createBranch branchName, Effect.stageAll, Effect.commit commitMsg],
      some "failed to commit")
  else if !e.pushOk then
    ([Effect.createBranch branchName, Effect.stageAll, Effect.commit commitMsg,
      Effect.push branchName], some "failed to push")
  else if !e.prOk then
    ([Effect.createBranch branchName, Effect.stageAll, Effect.commit commitMsg,
      Effect.push branchName, Effect.openPR commitMsg prBody], some "failed to create PR")
  else if !e.checkoutBackOk then
    ([Effect.createBranch branchName, Effect.stageAll, Effect.commit commitMsg,
      Effect.push branchName, Effect.openPR commitMsg prBody,
      Effect.checkoutBranch defaultBranch], some ("failed to checkout " ++ defaultBranch))
  else
    ([Effect.createBranch branchName, Effect.stageAll, Effect.commit commitMsg,
      Effect.push branchName, Effect.openPR commitMsg prBody,
      Effect.checkoutBranch defaultBranch], none)

/-- Everything one run of UpdateCmd.updateRepo observes of the world: the
repository identity and the two Go versions of the command, the porcelain
status at entry, the branch-resolution queries, the rev-parse of the current
branch (none when it fails), success flags for checkout and pull, the
mutation-step environment, the working-tree state the steps leave behind,
the branch names present on the remote (what ls-remote answers from), the
publish-operation flags, and whether the revert (git checkout dot) would
succeed. -/
structure UpdateEnv where
  repo : String
  prevVersion : String
  goVersion : String
  statusAtEntry : String
  branchEnv : BranchEnv
  currentBranchOut : Option String
  checkoutDefaultOk : Bool
  pullOk : Bool
  steps : StepsEnv
  post : RepoState
  remoteBranches : List String
  pub : PublishEnv
  revertOk : Bool
deriving DecidableEq, Repr

/-- The update entries of the commit message, built in updateRepo solely from
the observed per-path diffs: the test.yml entry when testYmlChanged, then
the go.mod entry when goModChanged. -/
def buildUpdates (prevV goV : String) (post : RepoState) : List String :=
  (if testYmlChanged post then ["Go " ++ prevV ++ ".x/" ++ goV ++ ".x, GitHub Actions"] else [])
    ++ (if goModChanged post then ["go.mod Go " ++ prevV ++ ", dependencies"] else [])

/-- The checkout issued before pulling: nothing when the current branch
already is the default branch. -/
def chkTrace (out : String) (env : UpdateEnv) : List Effect :=
  if goTrimSpace out = getDefaultBranch env.branchEnv then []
  else [Effect.checkoutBranch (getDefaultBranch env.branchEnv)]

/-- The tail of updateRepo after the mutation steps succeeded: gate on the
diff-derived update entries (none: terminal NoOp), compute the proposal
identity, check the remote for a branch of that name (found: revert the
working tree and stop as Skipped), otherwise publish through createPR. -/
def afterSteps (env : UpdateEnv) (t2 : List Effect) : RunResult :=
  if buildUpdates env.prevVersion env.goVersion env.post = [] then ⟨Outcome.noop, t2⟩
  else
    match generateBranchName env.post with
    | Except.error e => ⟨Outcome.err e, t2⟩
    | Except.ok branchName =>
      if env.remoteBranches.contains branchName then
        if env.revertOk then ⟨Outcome.skipped, t2 ++ [Effect.revert]⟩
        else ⟨Outcome.err "failed to revert changes", t2 ++ [Effect.revert]⟩
      else
        let commitMsg := "Update " ++
          String.intercalate ", " (buildUpdates env.prevVersion env.goVersion env.post)
        let prBody := "Updates: " ++
          String.intercalate ", " (buildUpdates env.prevVersion env.goVersion env.post) ++
          "\n\n---\nCreated by mygithelper"
        let pr := createPR env.pub (getDefaultBranch env.branchEnv) branchName commitMsg prBody
        match pr.2 with
        | some e => ⟨Outcome.err e, t2 ++ pr.1⟩
        | none => ⟨Outcome.published, t2 ++ pr.1⟩

/-- UpdateCmd.updateRepo (main.go): refuse a dirty working tree; resolve the
default branch and the current branch; checkout the default branch when they
differ; pull; run the mutation steps; then decide through afterSteps. -/
def updateRepo (env : UpdateEnv) : RunResult :=
  if 0 < env.statusAtEntry.length then
    ⟨Outcome.err ("repo " ++ env.repo ++ " has uncommitted changes:\n" ++ env.statusAtEntry ++
      "\nPlease commit or stash your changes"), []⟩
  else
    match env.currentBranchOut with
    | none => ⟨Outcome.err "failed to get current branch", []⟩
    | some out =>
      if goTrimSpace out ≠ getDefaultBranch env.branchEnv ∧ env.checkoutDefaultOk = false then
        ⟨Outcome.err ("failed to checkout " ++ getDefaultBranch env.branchEnv), chkTrace out env⟩
      else if env.pullOk = false then
        ⟨Outcome.err "failed to pull", chkTrace out env ++ [Effect.pull]⟩
      else
        match runUpdateSteps env.steps with
        | (ts, some e) => ⟨Outcome.err e, chkTrace out env ++ [Effect.pull] ++ ts⟩
        | (ts, none) => afterSteps env (chkTrace out env ++ [Effect.pull] ++ ts)

/-! ## The get command: stale-repository removal and repository iteration -/

/-- What GetCmd.removeStaleRepos observes of one directory entry of a group
directory: its name, whether it is a directory, whether it holds a .git
subdirectory, the porcelain status of a git status query inside it (none
when the command fails), and whether removing it would succeed. -/
structure DirEntry where
  name : String
  isDir : Bool
  hasDotGit : Bool
  status : Option String
  removeOk : Bool
deriving DecidableEq, Repr

/-- GetCmd.removeStaleRepos (main.go): walk the entries in order; skip
non-directories, expected repositories, and directories without .git; fail
on a status error or a dirty stale repository; otherwise remove the entry
and continue.  Returns the entries whose removal was issued (in order) and
the error that stopped the walk, when one did. -/
def removeStaleRepos (expected : List String) : List DirEntry → List DirEntry × Option String
  | [] => ([], none)
  | e :: rest =>
    if !e.isDir then removeStaleRepos expected rest
    else if expected.contains e.name then removeStaleRepos expected rest
    else if !e.hasDotGit then removeStaleRepos expected rest
    else
      match e.status with
      | none => ([], some ("failed to check git status in " ++ e.name))
      | some st =>
        if 0 < st.length then
          ([], some ("repo " ++ e.name ++
            " is no longer in the list but has uncommitted changes"))
        else if !e.removeOk then ([e], some ("failed to remove " ++ e.name))
        else
          let r := removeStaleRepos expected rest
          (e :: r.1, r.2)

/-- Config.ForEachRepo (main.go) for one repository list: the entries the
callback is invoked on, in order; an entry whose repoNameFromPath is empty
is skipped before anything runs on it. -/
def forEachRepoCalls (repos : List String) : List String :=
  repos.filter (fun repo => repoNameFromPath repo != "")

/-- The operation GetCmd.processRepo performs on a well-formed entry. -/
inductive GetAction where
  | clone (repo : String)
  | pull (repo : String)
deriving DecidableEq, Repr

/-- GetCmd.processRepo (main.go): reject a malformed path before any git
operation; otherwise pull when the repository directory exists and clone
when it does not. -/
def getProcessRepo (repoDirExists : Bool) (repo : String) : Except String GetAction :=
  if repoNameFromPath repo = "" then
    Except.error ("invalid repo format " ++ repo ++ ": expected owner/repo")
  else if repoDirExists then Except.ok (GetAction.pull repo)
  else Except.ok (GetAction.clone repo)

/-! ## Helper lemmas -/

/-- Traces that hold no proposal-creating effect and no revert. -/
def preTrace (t : List Effect) : Prop :=
  ∀ ef ∈ t, ef.isPublishEffect = false ∧ ef ≠ Effect.revert

theorem preTrace_append {a b : List Effect} (ha : preTrace a) (hb : preTrace b) :
    preTrace (a ++ b) := by
  intro ef hef
  rcases List.mem_append.mp hef with h | h
  · exact ha ef h
  · exact hb ef h

theorem preTrace_chk (out : String) (env : UpdateEnv) : preTrace (chkTrace out env) := by
  unfold chkTrace
  split
  · intro ef hef; simp at hef
  · intro ef hef
    simp only [List.mem_singleton] at hef
    subst hef
    exact ⟨rfl, by simp⟩

theorem runUpdateSteps_sub (e : StepsEnv) :
    ∀ ef ∈ (runUpdateSteps e).1,
      ef = Effect.stepTestYml ∨ ef = Effect.stepGhat ∨ ef = Effect.stepGoModEdit ∨
        ef = Effect.stepGoGet := by
  obtain ⟨a, b, c, d, f, g, k⟩ := e
  cases a <;> cases b <;> cases c <;> cases d <;> cases f <;> cases g <;> cases k <;> decide

theorem preTrace_steps (e : StepsEnv) : preTrace (runUpdateSteps e).1 := by
  intro ef hef
  rcases runUpdateSteps_sub e ef hef with h | h | h | h <;> subst h <;> exact ⟨rfl, by simp⟩

theorem preTrace_steps_eq (e : StepsEnv) (ts : List Effect) (serr : Option String)
    (h : runUpdateSteps e = (ts, serr)) : preTrace ts := by
  have hx := preTrace_steps e
  rw [h] at hx
  exact hx

theorem updateRepo_reach (env : UpdateEnv) (out : String) (ts : List Effect)
    (hclean : env.statusAtEntry = "")
    (hcb : env.currentBranchOut = some out)
    (hchk : env.checkoutDefaultOk = true)
    (hpull : env.pullOk = true)
    (hsteps : runUpdateSteps env.steps = (ts, none)) :
    updateRepo env = afterSteps env (chkTrace out env ++ [Effect.pull] ++ ts) := by
  have h0 : ¬ 0 < env.statusAtEntry.length := by rw [hclean]; decide
  unfold updateRepo
  rw [if_neg h0, hcb]
  simp only [hchk, hpull, hsteps]
  simp

theorem afterSteps_noop (env : UpdateEnv) (t : List Effect)
    (h : buildUpdates env.prevVersion env.goVersion env.post = []) :
    afterSteps env t = ⟨Outcome.noop, t⟩ := by
  unfold afterSteps
  rw [if_pos h]

theorem afterSteps_skip (env : UpdateEnv) (t : List Effect) (bn : String)
    (hupd : buildUpdates env.prevVersion env.goVersion env.post ≠ [])
    (hname : generateBranchName env.post = Except.ok bn)
    (hmem : env.remoteBranches.contains bn = true)
    (hrev : env.revertOk = true) :
    afterSteps env t = ⟨Outcome.skipped, t ++ [Effect.revert]⟩ := by
  unfold afterSteps
  rw [if_neg hupd, hname]
  simp only [hmem, hrev]
  simp

theorem afterSteps_pub (env : UpdateEnv) (t : List Effect) (bn : String)
    (hupd : buildUpdates env.prevVersion env.goVersion env.post ≠ [])
    (hname : generateBranchName env.post = Except.ok bn)
    (hmem : env.remoteBranches.contains bn = false)
    (hpub : env.pub = ⟨true, true, true, true, true, true⟩) :
    (afterSteps env t).outcome = Outcome.published := by
  unfold afterSteps
  rw [if_neg hupd, hname]
  simp only [hmem, hpub]
  simp [createPR]

theorem buildUpdates_nil (p g : String) (post : RepoState)
    (h1 : testYmlChanged post = false) (h2 : goModChanged post = false) :
    buildUpdates p g post = [] := by
  simp [buildUpdates, h1, h2]

theorem buildUpdates_ne_nil (p g : String) (post : RepoState)
    (h : testYmlChanged post = true ∨ goModChanged post = true) :
    buildUpdates p g post ≠ [] := by
  rcases h with h | h <;> cases hA : testYmlChanged post <;> simp [buildUpdates, hA, h] <;>
    simp [h] at hA ⊢

theorem string_eq_empty_of_length (s : String) (h : s.length = 0) : s = "" := by
  cases s with
  | mk data =>
    cases data with
    | nil => rfl
    | cons c rest => simp [String.length] at h

/-! ## The claims -/

/-- C9: prevGoVersion decrements the minor part of a two-part version whose
minor parses as an integer at least 1, and returns every other input
unchanged (prevGoVersionSpec is that statement written out from the claim). -/
theorem c9_prev_go_version (version : String) :
    prevGoVersion version = prevGoVersionSpec version := by
  unfold prevGoVersion prevGoVersionSpec
  cases hs : goSplit version '.' with
  | nil => rfl
  | cons a tail =>
    cases tail with
    | nil => rfl
    | cons b tail2 =>
      cases tail2 with
      | cons c tail3 => rfl
      | nil =>
        show (match goAtoi b with
          | none => version
          | some minor => if minor ≤ 0 then version else a ++ "." ++ toString (minor - 1)) =
          (match goAtoi b with
          | some minor => if 1 ≤ minor then a ++ "." ++ toString (minor - 1) else version
          | none => version)
        cases goAtoi b with
        | none => rfl
        | some m =>
          show (if m ≤ 0 then version else a ++ "." ++ toString (m - 1)) =
            (if 1 ≤ m then a ++ "." ++ toString (m - 1) else version)
          by_cases hm : m ≤ 0
          · rw [if_pos hm, if_neg (by omega)]
          · rw [if_neg hm, if_pos (by omega)]

/-- C6: getDefaultBranch resolves, first success winning: the recorded remote
HEAD pointer with its refs/remotes/origin/ front removed; else the probe for
main; else the probe for master; else main unverified. -/
theorem c6_default_branch_resolution (out : String) (hm hms : Bool) :
    getDefaultBranch ⟨some out, hm, hms⟩ =
      (if isPrefixList "refs/remotes/origin/".toList (goTrimSpace out).toList then
        String.mk ((goTrimSpace out).toList.drop "refs/remotes/origin/".toList.length)
      else goTrimSpace out) ∧
    getDefaultBranch ⟨none, true, hms⟩ = "main" ∧
    getDefaultBranch ⟨none, false, true⟩ = "master" ∧
    getDefaultBranch ⟨none, false, false⟩ = "main" :=
  ⟨rfl, rfl, rfl, rfl⟩

/-- C8: a repository listing entry that is not exactly two slash-separated
segments is rejected before any operation: its short name is empty, the
ForEachRepo iteration never invokes the callback on it, and the get command
path errors on it before choosing a clone or pull. -/
theorem c8_malformed_path_rejected (repo : String) (repos : List String) (dirExists : Bool)
    (h : (goSplit repo '/').length ≠ 2) :
    repoNameFromPath repo = "" ∧
    repo ∉ forEachRepoCalls repos ∧
    getProcessRepo dirExists repo =
      Except.error ("invalid repo format " ++ repo ++ ": expected owner/repo") := by
  have hname : repoNameFromPath repo = "" := by
    unfold repoNameFromPath
    cases hs : goSplit repo '/' with
    | nil => rfl
    | cons a tail =>
      cases tail with
      | nil => rfl
      | cons b tail2 =>
        cases tail2 with
        | nil => rw [hs] at h; simp at h
        | cons c tail3 => rfl
  refine ⟨hname, ?_, ?_⟩
  · intro hmem
    unfold forEachRepoCalls at hmem
    rw [List.mem_filter] at hmem
    simp [hname] at hmem
  · unfold getProcessRepo
    rw [if_pos hname]

theorem c8_witness :
    repoNameFromPath "a/b/c" = "" ∧
    "a/b/c" ∉ forEachRepoCalls ["a/b/c", "x/y"] ∧
    getProcessRepo true "a/b/c" =
      Except.error ("invalid repo format " ++ "a/b/c" ++ ": expected owner/repo") :=
  c8_malformed_path_rejected "a/b/c" ["a/b/c", "x/y"] true (by decide)

/-- C5: a dirty working tree at pipeline entry makes updateRepo return the
dirty-state error with an empty effect trace: no mutation step and no git
operation runs. -/
theorem c5_dirty_guard (env : UpdateEnv) (hd : 0 < env.statusAtEntry.length) :
    updateRepo env = ⟨Outcome.err ("repo " ++ env.repo ++ " has uncommitted changes:\n" ++
      env.statusAtEntry ++ "\nPlease commit or stash your changes"), []⟩ := by
  unfold updateRepo
  rw [if_pos hd]

def wEnvC5 : UpdateEnv :=
  { repo := "bep/hugo", prevVersion := "1.24", goVersion := "1.25",
    statusAtEntry := "?? newfile\n",
    branchEnv := ⟨some "refs/remotes/origin/main\n", false, false⟩,
    currentBranchOut := some "main\n", checkoutDefaultOk := true, pullOk := true,
    steps := ⟨true, true, true, true, true, true, true⟩,
    post := ⟨some "", some "", none, none⟩,
    remoteBranches := [], pub := ⟨true, true, true, true, true, true⟩, revertOk := true }

theorem c5_witness :
    updateRepo wEnvC5 = ⟨Outcome.err ("repo " ++ wEnvC5.repo ++ " has uncommitted changes:\n" ++
      wEnvC5.statusAtEntry ++ "\nPlease commit or stash your changes"), []⟩ :=
  c5_dirty_guard wEnvC5 (by decide)

/-- C1: the proposal identity is a pure function of the changed-file flags and
the final byte contents of the candidate files, hashed in the fixed order
test.yml then go.mod: equal flags and equal contents give the identical
mygithelper/update- token, and the token is the hex xxhash64 of the
concatenated changed bytes. -/
theorem c1_identity_deterministic (s1 s2 : RepoState) (cy cm : List Nat)
    (hty : testYmlChanged s1 = testYmlChanged s2)
    (hgm : goModChanged s1 = goModChanged s2)
    (h1a : s1.testYml = some cy) (h2a : s2.testYml = some cy)
    (h1b : s1.goMod = some cm) (h2b : s2.goMod = some cm) :
    generateBranchName s1 = generateBranchName s2 ∧
    generateBranchName s1 = Except.ok ("mygithelper/update-" ++ natToHex (xxh64
      ((if testYmlChanged s1 then cy else []) ++ (if goModChanged s1 then cm else [])))) := by
  constructor
  · unfold generateBranchName
    rw [h1a, h2a, h1b, h2b, hty, hgm]
  · unfold generateBranchName
    rw [h1a, h1b]
    cases hA : testYmlChanged s1 <;> cases hB : goModChanged s1 <;> simp [hA, hB]

def wRepoC1 : RepoState :=
  ⟨some " M .github/workflows/test.yml\n", some "", some [104, 105], some [103, 111]⟩

theorem c1_witness :
    generateBranchName wRepoC1 = generateBranchName wRepoC1 ∧
    generateBranchName wRepoC1 = Except.ok ("mygithelper/update-" ++ natToHex (xxh64
      ((if testYmlChanged wRepoC1 then [104, 105] else []) ++
        (if goModChanged wRepoC1 then [103, 111] else [])))) :=
  c1_identity_deterministic wRepoC1 wRepoC1 [104, 105] [103, 111] rfl rfl rfl rfl rfl rfl

theorem preTrace_pull : preTrace [Effect.pull] := by
  intro ef hef
  simp only [List.mem_singleton] at hef
  subst hef
  exact ⟨rfl, by simp⟩

theorem updateRepo_some (env : UpdateEnv) (out : String)
    (hcb : env.currentBranchOut = some out) (h1 : ¬ 0 < env.statusAtEntry.length) :
    updateRepo env =
      (if goTrimSpace out ≠ getDefaultBranch env.branchEnv ∧ env.checkoutDefaultOk = false then
        ⟨Outcome.err ("failed to checkout " ++ getDefaultBranch env.branchEnv), chkTrace out env⟩
      else if env.pullOk = false then
        ⟨Outcome.err "failed to pull", chkTrace out env ++ [Effect.pull]⟩
      else
        match runUpdateSteps env.steps with
        | (ts, some e) => ⟨Outcome.err e, chkTrace out env ++ [Effect.pull] ++ ts⟩
        | (ts, none) => afterSteps env (chkTrace out env ++ [Effect.pull] ++ ts)) := by
  unfold updateRepo
  rw [if_neg h1, hcb]

theorem updateRepo_shape (env : UpdateEnv) :
    (∃ msg t, updateRepo env = ⟨Outcome.err msg, t⟩ ∧ preTrace t) ∨
    (∃ t, updateRepo env = afterSteps env t ∧ preTrace t) := by
  by_cases h1 : 0 < env.statusAtEntry.length
  · refine Or.inl ⟨"repo " ++ env.repo ++ " has uncommitted changes:\n" ++ env.statusAtEntry ++
      "\nPlease commit or stash your changes", [], ?_, ?_⟩
    · unfold updateRepo
      rw [if_pos h1]
    · intro ef hef
      simp at hef
  · cases hcb : env.currentBranchOut with
    | none =>
      refine Or.inl ⟨"failed to get current branch", [], ?_, ?_⟩
      · unfold updateRepo
        rw [if_neg h1, hcb]
      · intro ef hef
        simp at hef
    | some out =>
      rw [updateRepo_some env out hcb h1]
      by_cases h2 : goTrimSpace out ≠ getDefaultBranch env.branchEnv ∧
          env.checkoutDefaultOk = false
      · rw [if_pos h2]
        exact Or.inl ⟨_, _, rfl, preTrace_chk out env⟩
      · rw [if_neg h2]
        by_cases h3 : env.pullOk = false
        · rw [if_pos h3]
          exact Or.inl ⟨_, _, rfl, preTrace_append (preTrace_chk out env) preTrace_pull⟩
        · rw [if_neg h3]
          cases hrs : runUpdateSteps env.steps with
          | mk ts serr =>
            cases serr with
            | some e =>
              exact Or.inl ⟨_, _, rfl, preTrace_append
                (preTrace_append (preTrace_chk out env) preTrace_pull)
                (preTrace_steps_eq env.steps ts _ hrs)⟩
            | none =>
              exact Or.inr ⟨_, rfl, preTrace_append
                (preTrace_append (preTrace_chk out env) preTrace_pull)
                (preTrace_steps_eq env.steps ts _ hrs)⟩

/-- C4: when the pipeline runs through with no mutation step leaving a diff
in any candidate tracked file, it ends as the NoOp outcome and its trace
holds no branch creation, staging, commit, push, review request, or
revert. -/
theorem c4_noop_no_side_effects (env : UpdateEnv) (out : String) (ts : List Effect)
    (hclean : env.statusAtEntry = "")
    (hcb : env.currentBranchOut = some out)
    (hchk : env.checkoutDefaultOk = true)
    (hpull : env.pullOk = true)
    (hsteps : runUpdateSteps env.steps = (ts, none))
    (hty : testYmlChanged env.post = false)
    (hgm : goModChanged env.post = false) :
    (updateRepo env).outcome = Outcome.noop ∧
    ∀ ef ∈ (updateRepo env).trace, ef.isPublishEffect = false ∧ ef ≠ Effect.revert := by
  have hreach := updateRepo_reach env out ts hclean hcb hchk hpull hsteps
  rw [hreach, afterSteps_noop env _ (buildUpdates_nil _ _ _ hty hgm)]
  exact ⟨rfl, preTrace_append (preTrace_append (preTrace_chk out env) preTrace_pull)
    (preTrace_steps_eq env.steps ts none hsteps)⟩

/-- C3: when the remote already holds a branch named by the identity token of
the current working tree, the pipeline ends as the Skipped outcome, its
trace reverts the working tree, and it creates no branch, staged state,
commit, push, or review request. -/
theorem c3_dedup_skip (env : UpdateEnv) (out bn : String) (ts : List Effect)
    (hclean : env.statusAtEntry = "")
    (hcb : env.currentBranchOut = some out)
    (hchk : env.checkoutDefaultOk = true)
    (hpull : env.pullOk = true)
    (hsteps : runUpdateSteps env.steps = (ts, none))
    (hchanged : testYmlChanged env.post = true ∨ goModChanged env.post = true)
    (hname : generateBranchName env.post = Except.ok bn)
    (hmem : env.remoteBranches.contains bn = true)
    (hrev : env.revertOk = true) :
    (updateRepo env).outcome = Outcome.skipped ∧
    Effect.revert ∈ (updateRepo env).trace ∧
    ∀ ef ∈ (updateRepo env).trace, ef.isPublishEffect = false := by
  have hreach := updateRepo_reach env out ts hclean hcb hchk hpull hsteps
  have hupd := buildUpdates_ne_nil env.prevVersion env.goVersion env.post hchanged
  rw [hreach, afterSteps_skip env _ bn hupd hname hmem hrev]
  refine ⟨rfl, by simp, ?_⟩
  intro ef hef
  rcases List.mem_append.mp hef with h | h
  · exact ((preTrace_append (preTrace_append (preTrace_chk out env) preTrace_pull)
      (preTrace_steps_eq env.steps ts none hsteps)) ef h).1
  · simp only [List.mem_singleton] at h
    subst h
    rfl

/-- C2: a first run that publishes a proposal followed by a second run over
the same resulting working-tree state, with the pushed branch now on the
remote and nothing else changed, makes the second run compute the same
identity token, find it on the remote, revert, and end Skipped with no
second branch, commit, push, or review request. -/
theorem c2_second_run_skips (env1 env2 : UpdateEnv) (out1 out2 bn : String)
    (ts1 ts2 : List Effect)
    (hclean1 : env1.statusAtEntry = "")
    (hcb1 : env1.currentBranchOut = some out1)
    (hchk1 : env1.checkoutDefaultOk = true)
    (hpull1 : env1.pullOk = true)
    (hsteps1 : runUpdateSteps env1.steps = (ts1, none))
    (hchanged : testYmlChanged env1.post = true ∨ goModChanged env1.post = true)
    (hname1 : generateBranchName env1.post = Except.ok bn)
    (hnot : env1.remoteBranches.contains bn = false)
    (hpub : env1.pub = ⟨true, true, true, true, true, true⟩)
    (hclean2 : env2.statusAtEntry = "")
    (hcb2 : env2.currentBranchOut = some out2)
    (hchk2 : env2.checkoutDefaultOk = true)
    (hpull2 : env2.pullOk = true)
    (hsteps2 : runUpdateSteps env2.steps = (ts2, none))
    (hpost : env2.post = env1.post)
    (hrem : env2.remoteBranches = bn :: env1.remoteBranches)
    (hrev2 : env2.revertOk = true) :
    (updateRepo env1).outcome = Outcome.published ∧
    generateBranchName env2.post = Except.ok bn ∧
    env2.remoteBranches.contains bn = true ∧
    (updateRepo env2).outcome = Outcome.skipped ∧
    Effect.revert ∈ (updateRepo env2).trace ∧
    ∀ ef ∈ (updateRepo env2).trace, ef.isPublishEffect = false := by
  have hupd1 := buildUpdates_ne_nil env1.prevVersion env1.goVersion env1.post hchanged
  have hr1 := updateRepo_reach env1 out1 ts1 hclean1 hcb1 hchk1 hpull1 hsteps1
  have hname2 : generateBranchName env2.post = Except.ok bn := by rw [hpost]; exact hname1
  have hmem2 : env2.remoteBranches.contains bn = true := by rw [hrem]; simp
  have hchanged2 : testYmlChanged env2.post = true ∨ goModChanged env2.post = true := by
    rw [hpost]; exact hchanged
  have hupd2 := buildUpdates_ne_nil env2.prevVersion env2.goVersion env2.post hchanged2
  have hr2 := updateRepo_reach env2 out2 ts2 hclean2 hcb2 hchk2 hpull2 hsteps2
  refine ⟨?_, hname2, hmem2, ?_, ?_, ?_⟩
  · rw [hr1]
    exact afterSteps_pub env1 _ bn hupd1 hname1 hnot hpub
  · rw [hr2, afterSteps_skip env2 _ bn hupd2 hname2 hmem2 hrev2]
  · rw [hr2, afterSteps_skip env2 _ bn hupd2 hname2 hmem2 hrev2]
    simp
  · rw [hr2, afterSteps_skip env2 _ bn hupd2 hname2 hmem2 hrev2]
    intro ef hef
    rcases List.mem_append.mp hef with h | h
    · exact ((preTrace_append (preTrace_append (preTrace_chk out2 env2) preTrace_pull)
        (preTrace_steps_eq env2.steps ts2 none hsteps2)) ef h).1
    · simp only [List.mem_singleton] at h
      subst h
      rfl

/-- C7: the update entries that gate publishing and word the commit message
depend only on the observed per-path diffs, never on which steps ran; and a
repository whose candidate files show no diff can never publish, whatever
steps executed and however the rest of the run went. -/
theorem c7_outcome_diff_based (p g : String) (post1 post2 : RepoState) (env : UpdateEnv)
    (h1 : testYmlChanged post1 = testYmlChanged post2)
    (h2 : goModChanged post1 = goModChanged post2)
    (hety : testYmlChanged env.post = false)
    (hegm : goModChanged env.post = false) :
    buildUpdates p g post1 = buildUpdates p g post2 ∧
    (updateRepo env).outcome ≠ Outcome.published ∧
    ∀ ef ∈ (updateRepo env).trace, ef.isPublishEffect = false := by
  have key : (updateRepo env).outcome ≠ Outcome.published ∧
      ∀ ef ∈ (updateRepo env).trace, ef.isPublishEffect = false := by
    rcases updateRepo_shape env with ⟨msg, t, heq, hp⟩ | ⟨t, heq, hp⟩
    · rw [heq]
      exact ⟨by simp, fun ef hef => (hp ef hef).1⟩
    · rw [heq, afterSteps_noop env t (buildUpdates_nil _ _ _ hety hegm)]
      exact ⟨by simp, fun ef hef => (hp ef hef).1⟩
  refine ⟨?_, key.1, key.2⟩
  unfold buildUpdates
  rw [h1, h2]

def wPostChanged : RepoState :=
  ⟨some " M .github/workflows/test.yml\n", some "", some [104, 105], some [103, 111]⟩

def wBn : String := "mygithelper/update-" ++ natToHex (xxh64 [104, 105])

def wEnvPub : UpdateEnv :=
  { repo := "bep/hugo", prevVersion := "1.24", goVersion := "1.25", statusAtEntry := "",
    branchEnv := ⟨some "refs/remotes/origin/main\n", false, false⟩,
    currentBranchOut := some "main\n", checkoutDefaultOk := true, pullOk := true,
    steps := ⟨true, true, false, true, true, true, true⟩, post := wPostChanged,
    remoteBranches := [], pub := ⟨true, true, true, true, true, true⟩, revertOk := true }

def wEnvSkip : UpdateEnv := { wEnvPub with remoteBranches := [wBn] }

def wEnvNoop : UpdateEnv := { wEnvPub with post := ⟨some "", some "", some [], some []⟩ }

theorem c4_witness :
    (updateRepo wEnvNoop).outcome = Outcome.noop ∧
    ∀ ef ∈ (updateRepo wEnvNoop).trace, ef.isPublishEffect = false ∧ ef ≠ Effect.revert :=
  c4_noop_no_side_effects wEnvNoop "main\n" [Effect.stepTestYml, Effect.stepGhat]
    rfl rfl rfl rfl rfl rfl rfl

theorem c3_witness :
    (updateRepo wEnvSkip).outcome = Outcome.skipped ∧
    Effect.revert ∈ (updateRepo wEnvSkip).trace ∧
    ∀ ef ∈ (updateRepo wEnvSkip).trace, ef.isPublishEffect = false :=
  c3_dedup_skip wEnvSkip "main\n" wBn [Effect.stepTestYml, Effect.stepGhat]
    rfl rfl rfl rfl rfl (Or.inl rfl) rfl rfl rfl

theorem c2_witness :
    (updateRepo wEnvPub).outcome = Outcome.published ∧
    generateBranchName wEnvSkip.post = Except.ok wBn ∧
    wEnvSkip.remoteBranches.contains wBn = true ∧
    (updateRepo wEnvSkip).outcome = Outcome.skipped ∧
    Effect.revert ∈ (updateRepo wEnvSkip).trace ∧
    ∀ ef ∈ (updateRepo wEnvSkip).trace, ef.isPublishEffect = false :=
  c2_second_run_skips wEnvPub wEnvSkip "main\n" "main\n" wBn
    [Effect.stepTestYml, Effect.stepGhat] [Effect.stepTestYml, Effect.stepGhat]
    rfl rfl rfl rfl rfl (Or.inl rfl) rfl rfl rfl rfl rfl rfl rfl rfl rfl rfl rfl

theorem c7_witness :
    buildUpdates "1.24" "1.25" wEnvNoop.post = buildUpdates "1.24" "1.25" wEnvNoop.post ∧
    (updateRepo wEnvNoop).outcome ≠ Outcome.published ∧
    ∀ ef ∈ (updateRepo wEnvNoop).trace, ef.isPublishEffect = false :=
  c7_outcome_diff_based "1.24" "1.25" wEnvNoop.post wEnvNoop.post wEnvNoop rfl rfl rfl rfl

theorem removeStale_del (expected : List String) (entries : List DirEntry) :
    ∀ e ∈ (removeStaleRepos expected entries).1,
      e ∈ entries ∧ e.isDir = true ∧ expected.contains e.name = false ∧ e.hasDotGit = true ∧
        e.status = some "" := by
  induction entries with
  | nil =>
    intro e he
    simp [removeStaleRepos] at he
  | cons a rest ih =>
    intro e he
    unfold removeStaleRepos at he
    cases ha : a.isDir with
    | false =>
      simp only [ha, Bool.not_false, if_true] at he
      obtain ⟨hm, h2, h3, h4, h5⟩ := ih e he
      exact ⟨List.mem_cons_of_mem a hm, h2, h3, h4, h5⟩
    | true =>
      simp only [ha, Bool.not_true, Bool.false_eq_true, if_false] at he
      cases hb : expected.contains a.name with
      | true =>
        simp only [hb, if_true] at he
        obtain ⟨hm, h2, h3, h4, h5⟩ := ih e he
        exact ⟨List.mem_cons_of_mem a hm, h2, h3, h4, h5⟩
      | false =>
        simp only [hb, Bool.false_eq_true, if_false] at he
        cases hc : a.hasDotGit with
        | false =>
          simp only [hc, Bool.not_false, if_true] at he
          obtain ⟨hm, h2, h3, h4, h5⟩ := ih e he
          exact ⟨List.mem_cons_of_mem a hm, h2, h3, h4, h5⟩
        | true =>
          simp only [hc, Bool.not_true, Bool.false_eq_true, if_false] at he
          cases hd : a.status with
          | none => simp [hd] at he
          | some st =>
            simp only [hd] at he
            by_cases hl : 0 < st.length
            · simp [hl] at he
            · cases hrm : a.removeOk with
              | false =>
                simp [hl, hrm] at he
                subst he
                exact ⟨List.mem_cons_self e rest, ha, hb, hc, by
                  rw [hd, string_eq_empty_of_length st (by omega)]⟩
              | true =>
                simp [hl, hrm] at he
                rcases he with he | he
                · subst he
                  exact ⟨List.mem_cons_self e rest, ha, hb, hc, by
                    rw [hd, string_eq_empty_of_length st (by omega)]⟩
                · obtain ⟨hm, h2, h3, h4, h5⟩ := ih e he
                  exact ⟨List.mem_cons_of_mem a hm, h2, h3, h4, h5⟩

theorem removeStale_dirty (expected : List String) (e : DirEntry) (st : String)
    (hd : e.isDir = true) (hx : expected.contains e.name = false)
    (hg : e.hasDotGit = true) (hs : e.status = some st) (hl : 0 < st.length) :
    ∀ entries : List DirEntry, e ∈ entries → (removeStaleRepos expected entries).2 ≠ none := by
  intro entries
  induction entries with
  | nil =>
    intro he
    simp at he
  | cons a rest ih =>
    intro he
    rcases List.mem_cons.mp he with heq | hmem
    · subst heq
      unfold removeStaleRepos
      simp only [hd, hx, hg, hs, Bool.not_true, Bool.false_eq_true, if_false]
      simp [hl]
    · unfold removeStaleRepos
      split
      · exact ih hmem
      · split
        · exact ih hmem
        · split
          · exact ih hmem
          · split
            · simp
            · split
              · simp
              · split
                · simp
                · simpa using ih hmem

/-- C10: removeStaleRepos only ever removes a directory entry that is absent
from the expected set, holds a .git subdirectory, and has a clean status;
and a stale git directory with a dirty status makes the walk end in an
error rather than being removed. -/
theorem c10_remove_stale_safe (expected : List String) (entries : List DirEntry)
    (e : DirEntry) (st : String) :
    (e ∈ (removeStaleRepos expected entries).1 →
      e ∈ entries ∧ e.isDir = true ∧ expected.contains e.name = false ∧
        e.hasDotGit = true ∧ e.status = some "") ∧
    (e ∈ entries → e.isDir = true → expected.contains e.name = false → e.hasDotGit = true →
      e.status = some st → 0 < st.length → (removeStaleRepos expected entries).2 ≠ none) :=
  ⟨fun h => removeStale_del expected entries e h,
   fun h1 h2 h3 h4 h5 h6 => removeStale_dirty expected e st h2 h3 h4 h5 h6 entries h1⟩
